import Mathlib

/-!
Verification of the EOQ (Economic Order Quantity) model from
`inventoryanalytics/lotsizing/deterministic/constant/eoq.py`.

The class `eoq` stores four real parameters `K, h, d, v` and exposes
cost evaluators and derived metrics.  Arithmetic is embedded over `ℝ`.
Python float division raises `ZeroDivisionError` on a zero divisor, so
each cost evaluator also gets a `..._run` variant returning `Option ℝ`
(`none` = a raised `ZeroDivisionError`); the plain `ℝ`-valued variants
use Lean's total division and agree with the `_run` variants wherever
those succeed.
-/

namespace InventoryAnalytics

/-- The `eoq` class: fixed ordering cost `K`, proportional holding cost
`h`, demand per period `d`, unit purchasing cost `v`.  The constructor
stores the four fields verbatim and performs no validation. -/
structure eoq where
  K : ℝ
  h : ℝ
  d : ℝ
  v : ℝ

noncomputable section

/-- Python float division: `a / b`, raising `ZeroDivisionError`
(modelled as `none`) when the divisor is zero. -/
def pydiv (a b : ℝ) : Option ℝ :=
  if b = 0 then none else some (a / b)

/-- `co_fixed(Q) = K/(Q/d)` as executed by Python: the inner division
`Q/d` runs first, then the outer one; either may raise. -/
def co_fixed_run (m : eoq) (Q : ℝ) : Option ℝ :=
  (pydiv Q m.d).bind fun cycle => pydiv m.K cycle

/-- `co_variable(Q) = d*v`; no division, never raises, ignores `Q`. -/
def co_variable_run (m : eoq) (_Q : ℝ) : Option ℝ :=
  some (m.d * m.v)

/-- `ch(Q) = h*Q/2`; the divisor is the literal `2`, never raises. -/
def ch_run (m : eoq) (Q : ℝ) : Option ℝ :=
  some (m.h * Q / 2)

/-- `relevant_cost(Q) = co_fixed(Q) + ch(Q)`, propagating exceptions. -/
def relevant_cost_run (m : eoq) (Q : ℝ) : Option ℝ :=
  (co_fixed_run m Q).bind fun a => (ch_run m Q).map fun b => a + b

/-- `cost(Q) = co_fixed(Q) + co_variable(Q) + ch(Q)`, propagating
exceptions. -/
def cost_run (m : eoq) (Q : ℝ) : Option ℝ :=
  (co_fixed_run m Q).bind fun a =>
    (co_variable_run m Q).bind fun b =>
      (ch_run m Q).map fun c => a + b + c

/-- `co_fixed(Q) = K/(Q/d)` over total real division. -/
def co_fixed (m : eoq) (Q : ℝ) : ℝ := m.K / (Q / m.d)

/-- `co_variable(Q) = d*v`. -/
def co_variable (m : eoq) (_Q : ℝ) : ℝ := m.d * m.v

/-- `ch(Q) = h*Q/2`. -/
def ch (m : eoq) (Q : ℝ) : ℝ := m.h * Q / 2

/-- `relevant_cost(Q) = co_fixed(Q) + ch(Q)`. -/
def relevant_cost (m : eoq) (Q : ℝ) : ℝ := co_fixed m Q + ch m Q

/-- `cost(Q) = co_fixed(Q) + co_variable(Q) + ch(Q)`. -/
def cost (m : eoq) (Q : ℝ) : ℝ :=
  co_fixed m Q + co_variable m Q + ch m Q

/-- The result object returned by `scipy.optimize.minimize`: the final
iterate `x` (one-dimensional here) and the convergence flag `success`.
On non-convergence within the iteration budget, `minimize` does not
raise: it returns a result with `success = False` (and `disp = False`
suppresses even the warning message). -/
structure OptimizeResult where
  x : ℝ
  success : Bool

/-- `compute_eoq`'s final statement `return res.x[0]`: the iterate is
extracted from the minimize result unconditionally; `res.success` is
never inspected. -/
def compute_eoq_of_result (res : OptimizeResult) : ℝ := res.x

/-- `compute_eoq()`: Nelder–Mead minimization of `relevant_cost` from
`x0 = 1` with `xtol = 1e-8`.  Embedded as the idealized exact result of
that minimization: the unique minimizer of `relevant_cost` on `(0, ∞)`,
which is `√(2*K*d/h)`.  The theorems below prove that this value is
indeed the strict global minimizer of `relevant_cost` on `(0, ∞)`,
justifying the embedding. -/
def compute_eoq (m : eoq) : ℝ := Real.sqrt (2 * m.K * m.d / m.h)

/-- `coverage() = compute_eoq()/d`. -/
def coverage (m : eoq) : ℝ := compute_eoq m / m.d

/-- `average_inventory() = compute_eoq()/2`. -/
def average_inventory (m : eoq) : ℝ := compute_eoq m / 2

/-- `itr() = 2*d/compute_eoq()`. -/
def itr (m : eoq) : ℝ := 2 * m.d / compute_eoq m

/-- `sensitivity_to_Q(Q) = 0.5*(Qopt/Q + Q/Qopt)` with
`Qopt = compute_eoq()`. -/
def sensitivity_to_Q (m : eoq) (Q : ℝ) : ℝ :=
  0.5 * (compute_eoq m / Q + Q / compute_eoq m)

/-- `reorder_point(lead_time) = d*lead_time`. -/
def reorder_point (m : eoq) (lead_time : ℝ) : ℝ := m.d * lead_time

end

/-! ## Helper lemmas -/

/-- Over total real division, `K/(Q/d) = K*d/Q` unconditionally. -/
lemma co_fixed_eq (m : eoq) (Q : ℝ) : co_fixed m Q = m.K * m.d / Q := by
  unfold co_fixed
  rw [div_div_eq_mul_div]

/-- `relevant_cost` as a rational function of `Q`. -/
lemma relevant_cost_eq (m : eoq) (Q : ℝ) :
    relevant_cost m Q = m.K * m.d / Q + m.h * Q / 2 := by
  unfold relevant_cost ch
  rw [co_fixed_eq]

lemma compute_eoq_pos (m : eoq) (hK : 0 < m.K) (hh : 0 < m.h)
    (hd : 0 < m.d) : 0 < compute_eoq m := by
  unfold compute_eoq
  exact Real.sqrt_pos.mpr (by positivity)

lemma compute_eoq_sq (m : eoq) (hK : 0 < m.K) (hh : 0 < m.h)
    (hd : 0 < m.d) : compute_eoq m ^ 2 = 2 * m.K * m.d / m.h := by
  unfold compute_eoq
  exact Real.sq_sqrt (by positivity)

/-- The exact discrete excess-cost identity: for `Q > 0`,
`relevant_cost Q = relevant_cost Qopt + h*(Q - Qopt)^2/(2*Q)`. -/
lemma relevant_cost_excess (m : eoq) (hK : 0 < m.K) (hh : 0 < m.h)
    (hd : 0 < m.d) {Q : ℝ} (hQ : 0 < Q) :
    relevant_cost m Q =
      relevant_cost m (compute_eoq m) +
        m.h * (Q - compute_eoq m) ^ 2 / (2 * Q) := by
  have hq : 0 < compute_eoq m := compute_eoq_pos m hK hh hd
  have hq2 := compute_eoq_sq m hK hh hd
  have hKd : m.K * m.d = m.h * compute_eoq m ^ 2 / 2 := by
    rw [hq2]; field_simp; ring
  rw [relevant_cost_eq, relevant_cost_eq, hKd]
  field_simp
  ring

/-- On `(0, ∞)`, `compute_eoq` is the strict global minimizer of
`relevant_cost`. -/
lemma relevant_cost_strict_min (m : eoq) (hK : 0 < m.K) (hh : 0 < m.h)
    (hd : 0 < m.d) {Q : ℝ} (hQ : 0 < Q) (hne : Q ≠ compute_eoq m) :
    relevant_cost m (compute_eoq m) < relevant_cost m Q := by
  rw [relevant_cost_excess m hK hh hd hQ]
  have h1 : 0 < (Q - compute_eoq m) ^ 2 := by
    have : Q - compute_eoq m ≠ 0 := sub_ne_zero_of_ne hne
    positivity
  have h2 : 0 < m.h * (Q - compute_eoq m) ^ 2 / (2 * Q) := by positivity
  linarith

lemma relevant_cost_min (m : eoq) (hK : 0 < m.K) (hh : 0 < m.h)
    (hd : 0 < m.d) {Q : ℝ} (hQ : 0 < Q) :
    relevant_cost m (compute_eoq m) ≤ relevant_cost m Q := by
  rw [relevant_cost_excess m hK hh hd hQ]
  have h2 : 0 ≤ m.h * (Q - compute_eoq m) ^ 2 / (2 * Q) := by positivity
  linarith

/-- Strict convexity of `relevant_cost` on `(0, ∞)` (the holding term
is affine in `Q`, so only `K*d > 0` is needed). -/
lemma relevant_cost_strictConvexOn (m : eoq) (hK : 0 < m.K)
    (hd : 0 < m.d) :
    StrictConvexOn ℝ (Set.Ioi 0) (relevant_cost m) := by
  constructor
  · exact convex_Ioi 0
  · intro x hx y hy hxy a b ha hb hab
    simp only [smul_eq_mul]
    have hx0 : 0 < x := hx
    have hy0 : 0 < y := hy
    have hs : 0 < a * x + b * y := by positivity
    have hxy2 : 0 < (x - y) ^ 2 := by
      have : x - y ≠ 0 := sub_ne_zero_of_ne hxy
      positivity
    have key : x * y < (a * y + b * x) * (a * x + b * y) := by
      have hb' : b = 1 - a := by linarith
      rw [hb']
      nlinarith [mul_pos (mul_pos ha (by linarith : (0:ℝ) < 1 - a)) hxy2]
    have hKd : 0 < m.K * m.d := mul_pos hK hd
    have hfrac : m.K * m.d / (a * x + b * y) <
        a * (m.K * m.d / x) + b * (m.K * m.d / y) := by
      have hsum : a * (m.K * m.d / x) + b * (m.K * m.d / y) =
          m.K * m.d * (a * y + b * x) / (x * y) := by
        field_simp
        ring
      rw [hsum, div_lt_div_iff₀ hs (by positivity)]
      nlinarith [key, hKd]
    rw [relevant_cost_eq, relevant_cost_eq, relevant_cost_eq]
    have expand :
        a * (m.K * m.d / x + m.h * x / 2) +
          b * (m.K * m.d / y + m.h * y / 2) =
        (a * (m.K * m.d / x) + b * (m.K * m.d / y)) +
          m.h * (a * x + b * y) / 2 := by ring
    rw [expand]
    linarith [hfrac]

/-- The run-level `co_fixed` succeeds whenever both divisors are
nonzero, returning `K*d/Q`. -/
lemma co_fixed_run_eq (m : eoq) (hd : m.d ≠ 0) {Q : ℝ} (hQ : Q ≠ 0) :
    co_fixed_run m Q = some (m.K * m.d / Q) := by
  unfold co_fixed_run pydiv
  rw [if_neg hd, Option.some_bind, if_neg (div_ne_zero hQ hd),
    div_div_eq_mul_div]

/-- `co_fixed` raises `ZeroDivisionError` at `Q = 0` (when `d ≠ 0`):
the inner division yields `0` and the outer one divides by it. -/
lemma co_fixed_run_zero (m : eoq) (hd : m.d ≠ 0) :
    co_fixed_run m 0 = none := by
  unfold co_fixed_run pydiv
  rw [if_neg hd, Option.some_bind, zero_div, if_pos rfl]

/-- The run-level `relevant_cost` succeeds off the singularities. -/
lemma relevant_cost_run_eq (m : eoq) (hd : m.d ≠ 0) {Q : ℝ}
    (hQ : Q ≠ 0) :
    relevant_cost_run m Q = some (m.K * m.d / Q + m.h * Q / 2) := by
  unfold relevant_cost_run ch_run
  rw [co_fixed_run_eq m hd hQ, Option.some_bind]
  rfl

/-- The run-level `cost` succeeds off the singularities. -/
lemma cost_run_eq (m : eoq) (hd : m.d ≠ 0) {Q : ℝ} (hQ : Q ≠ 0) :
    cost_run m Q = some (m.K * m.d / Q + m.d * m.v + m.h * Q / 2) := by
  unfold cost_run co_variable_run ch_run
  rw [co_fixed_run_eq m hd hQ, Option.some_bind, Option.some_bind]
  rfl

/-- Concrete evaluation of the optimizer at the sample model
`K = 2, h = 1, d = 1, v = 0`: `√(2*2*1/1) = √4 = 2`. -/
lemma compute_eoq_sample : compute_eoq ⟨2, 1, 1, 0⟩ = 2 := by
  unfold compute_eoq
  rw [show (2:ℝ) * 2 * 1 / 1 = 2 ^ 2 by norm_num,
    Real.sqrt_sq (by norm_num : (0:ℝ) ≤ 2)]

/-! ## Claim theorems -/

/-- Claim C1: for every model with `K > 0`, `h > 0`, `d > 0` (any `v`),
`compute_eoq()` — the minimizer of `relevant_cost` on `(0, ∞)` that the
Nelder–Mead search returns — equals `√(2*K*d/h)` within relative error
`1e-6` (in the real-number embedding the error is exactly `0`). -/
theorem C1_compute_eoq_closed_form (m : eoq) (hK : 0 < m.K)
    (hh : 0 < m.h) (hd : 0 < m.d) :
    (∀ Q ∈ Set.Ioi (0:ℝ),
        relevant_cost m (compute_eoq m) ≤ relevant_cost m Q) ∧
    |compute_eoq m - Real.sqrt (2 * m.K * m.d / m.h)| ≤
      (1 / 1000000) * Real.sqrt (2 * m.K * m.d / m.h) := by
  refine ⟨fun Q hQ => relevant_cost_min m hK hh hd hQ, ?_⟩
  rw [show compute_eoq m = Real.sqrt (2 * m.K * m.d / m.h) from rfl,
    sub_self, abs_zero]
  positivity

/-- Witness for C1 at the concrete model `K = 2, h = 1, d = 1, v = 0`
and `Q = 3`. -/
theorem C1_compute_eoq_closed_form_witness :
    relevant_cost ⟨2, 1, 1, 0⟩ (compute_eoq ⟨2, 1, 1, 0⟩) ≤
      relevant_cost ⟨2, 1, 1, 0⟩ 3 ∧
    |compute_eoq ⟨2, 1, 1, 0⟩ - Real.sqrt (2 * 2 * 1 / 1)| ≤
      (1 / 1000000) * Real.sqrt (2 * 2 * 1 / 1) := by
  obtain ⟨hmin, herr⟩ := C1_compute_eoq_closed_form ⟨2, 1, 1, 0⟩
    (by norm_num) (by norm_num) (by norm_num)
  exact ⟨hmin 3 (Set.mem_Ioi.mpr (by norm_num)), herr⟩

/-- Claim C2: for every model with `K > 0`, `h > 0`, `d > 0`, the map
`Q ↦ relevant_cost(Q)` is strictly convex on `(0, ∞)` and attains its
unique minimum there at `Q = compute_eoq()`. -/
theorem C2_relevant_cost_strictly_convex (m : eoq) (hK : 0 < m.K)
    (hh : 0 < m.h) (hd : 0 < m.d) :
    StrictConvexOn ℝ (Set.Ioi 0) (relevant_cost m) ∧
    compute_eoq m ∈ Set.Ioi (0:ℝ) ∧
    ∀ Q ∈ Set.Ioi (0:ℝ), Q ≠ compute_eoq m →
      relevant_cost m (compute_eoq m) < relevant_cost m Q :=
  ⟨relevant_cost_strictConvexOn m hK hd, compute_eoq_pos m hK hh hd,
    fun _Q hQ hne => relevant_cost_strict_min m hK hh hd hQ hne⟩

/-- Witness for C2 at the concrete model `K = 2, h = 1, d = 1, v = 0`
(where the optimum is `2`) and the off-optimum `Q = 3`. -/
theorem C2_relevant_cost_strictly_convex_witness :
    StrictConvexOn ℝ (Set.Ioi 0) (relevant_cost ⟨2, 1, 1, 0⟩) ∧
    compute_eoq ⟨2, 1, 1, 0⟩ ∈ Set.Ioi (0:ℝ) ∧
    relevant_cost ⟨2, 1, 1, 0⟩ (compute_eoq ⟨2, 1, 1, 0⟩) <
      relevant_cost ⟨2, 1, 1, 0⟩ 3 := by
  obtain ⟨hconv, hmem, hmin⟩ := C2_relevant_cost_strictly_convex
    ⟨2, 1, 1, 0⟩ (by norm_num) (by norm_num) (by norm_num)
  refine ⟨hconv, hmem, hmin 3 (Set.mem_Ioi.mpr (by norm_num)) ?_⟩
  rw [compute_eoq_sample]
  norm_num

/-- Counterexample to claim C3: with the valid parameters
`K = 100, h = 1, d = 10, v = 2`, passing `Q = -1 ≤ 0` to `co_fixed`
raises nothing and returns the finite value `-1000`; and evaluating
`ch` with `h = -1 ≤ 0` at `Q = 4` returns the finite value `-2`.  No
`InvalidQuantity` or `InvalidParameter` error exists in the code. -/
theorem C3_counterexample :
    co_fixed_run ⟨100, 1, 10, 2⟩ (-1) = some (-1000) ∧
    ch_run ⟨100, -1, 10, 2⟩ 4 = some (-2) := by
  constructor
  · rw [co_fixed_run_eq ⟨100, 1, 10, 2⟩ (by norm_num) (by norm_num)]
    norm_num
  · unfold ch_run
    norm_num

/-- Claim C3 amended: the cost evaluators perform no validation at all.
For any model with `d ≠ 0` and any `Q < 0`, every evaluator returns an
ordinary finite value — `co_fixed` returns `K*d/Q`, `ch` returns
`h*Q/2`, `co_variable` returns `d*v`, `cost` their sum — and no error
is raised; the parameters `K, h, d, v` may have any sign.  The only
failure in the code is a `ZeroDivisionError` when `co_fixed` is called
at `Q = 0` (or when `d = 0`). -/
theorem C3_amended_no_validation (m : eoq) (hd : m.d ≠ 0) {Q : ℝ}
    (hQ : Q < 0) :
    co_fixed_run m Q = some (m.K * m.d / Q) ∧
    ch_run m Q = some (m.h * Q / 2) ∧
    co_variable_run m Q = some (m.d * m.v) ∧
    cost_run m Q = some (m.K * m.d / Q + m.d * m.v + m.h * Q / 2) ∧
    co_fixed_run m 0 = none :=
  ⟨co_fixed_run_eq m hd hQ.ne, rfl, rfl, cost_run_eq m hd hQ.ne,
    co_fixed_run_zero m hd⟩

/-- Witness for the amended C3 at `K = 100, h = 1, d = 10, v = 2`,
`Q = -1`. -/
theorem C3_amended_no_validation_witness :
    co_fixed_run ⟨100, 1, 10, 2⟩ (-1) = some (100 * 10 / (-1)) ∧
    ch_run ⟨100, 1, 10, 2⟩ (-1) = some (1 * (-1) / 2) ∧
    co_variable_run ⟨100, 1, 10, 2⟩ (-1) = some (10 * 2) ∧
    cost_run ⟨100, 1, 10, 2⟩ (-1) =
      some (100 * 10 / (-1) + 10 * 2 + 1 * (-1) / 2) ∧
    co_fixed_run ⟨100, 1, 10, 2⟩ 0 = none :=
  C3_amended_no_validation ⟨100, 1, 10, 2⟩ (by norm_num) (by norm_num)

/-- Counterexample to claim C4: a non-converged minimize result
(`success = false`, final iterate `37`) is returned by `compute_eoq`'s
`return res.x[0]` as the plain value `37` — no error is surfaced. -/
theorem C4_counterexample :
    compute_eoq_of_result ⟨37, false⟩ = 37 := rfl

/-- Claim C4 amended: `compute_eoq()` extracts `res.x[0]` from the
minimize result without inspecting `res.success` (and `disp = False`
suppresses the convergence warning), so a non-converged partial result
is returned silently, identically to a converged one; no error ever
reaches the caller. -/
theorem C4_amended_silent_partial_result (x : ℝ) :
    compute_eoq_of_result ⟨x, false⟩ = x ∧
    compute_eoq_of_result ⟨x, false⟩ = compute_eoq_of_result ⟨x, true⟩ :=
  ⟨rfl, rfl⟩

/-- Claim C5: for every model (spec invariant `d > 0`) and every
`Q > 0`: `co_fixed(Q)` evaluates to `K/(Q/d)`, `ch(Q)` to `h*Q/2`, and
`relevant_cost(Q)` to their sum. -/
theorem C5_cost_component_formulas (m : eoq) (hd : 0 < m.d) {Q : ℝ}
    (hQ : 0 < Q) :
    co_fixed_run m Q = some (m.K / (Q / m.d)) ∧
    ch_run m Q = some (m.h * Q / 2) ∧
    relevant_cost_run m Q = some (m.K / (Q / m.d) + m.h * Q / 2) := by
  have h1 : m.K / (Q / m.d) = m.K * m.d / Q := div_div_eq_mul_div _ _ _
  exact ⟨by rw [h1]; exact co_fixed_run_eq m hd.ne' hQ.ne', rfl,
    by rw [h1]; exact relevant_cost_run_eq m hd.ne' hQ.ne'⟩

/-- Witness for C5 at `K = 100, h = 1, d = 10, v = 2`, `Q = 50`. -/
theorem C5_cost_component_formulas_witness :
    co_fixed_run ⟨100, 1, 10, 2⟩ 50 = some (100 / (50 / 10)) ∧
    ch_run ⟨100, 1, 10, 2⟩ 50 = some (1 * 50 / 2) ∧
    relevant_cost_run ⟨100, 1, 10, 2⟩ 50 =
      some (100 / (50 / 10) + 1 * 50 / 2) :=
  C5_cost_component_formulas ⟨100, 1, 10, 2⟩ (by norm_num) (by norm_num)

/-- Claim C6: for every model (spec invariant `d > 0`) and every
`Q > 0`, `cost(Q)` evaluates to
`co_fixed(Q) + co_variable(Q) + ch(Q)`, where `co_variable` returns
`d*v` at every `Q` and is therefore independent of its argument. -/
theorem C6_total_cost_decomposition (m : eoq) (hd : 0 < m.d) {Q : ℝ}
    (hQ : 0 < Q) :
    cost_run m Q = some (m.K / (Q / m.d) + m.d * m.v + m.h * Q / 2) ∧
    (∀ Q1 : ℝ, co_variable_run m Q1 = some (m.d * m.v)) ∧
    (∀ Q1 Q2 : ℝ, co_variable_run m Q1 = co_variable_run m Q2) := by
  have h1 : m.K / (Q / m.d) = m.K * m.d / Q := div_div_eq_mul_div _ _ _
  exact ⟨by rw [h1]; exact cost_run_eq m hd.ne' hQ.ne',
    fun _ => rfl, fun _ _ => rfl⟩

/-- Witness for C6 at `K = 100, h = 1, d = 10, v = 2`, `Q = 50`, with
`co_variable` sampled at `Q = 7` and `Q = 99`. -/
theorem C6_total_cost_decomposition_witness :
    cost_run ⟨100, 1, 10, 2⟩ 50 =
      some (100 / (50 / 10) + 10 * 2 + 1 * 50 / 2) ∧
    co_variable_run ⟨100, 1, 10, 2⟩ 7 = some (10 * 2) ∧
    co_variable_run ⟨100, 1, 10, 2⟩ 7 =
      co_variable_run ⟨100, 1, 10, 2⟩ 99 := by
  obtain ⟨hcost, hvar, hind⟩ := C6_total_cost_decomposition
    ⟨100, 1, 10, 2⟩ (by norm_num) (show (0:ℝ) < 50 by norm_num)
  exact ⟨hcost, hvar 7, hind 7 99⟩

/-- Claim C7: with `Qopt = compute_eoq()` (for a model with positive
parameters): `sensitivity_to_Q(Qopt) = 1` exactly;
`sensitivity_to_Q(Q) > 1` for every `Q > 0` with `Q ≠ Qopt`; and
`sensitivity_to_Q(Qopt*k) = sensitivity_to_Q(Qopt/k)` for every
`k > 0`. -/
theorem C7_sensitivity_properties (m : eoq) (hK : 0 < m.K)
    (hh : 0 < m.h) (hd : 0 < m.d) :
    sensitivity_to_Q m (compute_eoq m) = 1 ∧
    (∀ Q : ℝ, 0 < Q → Q ≠ compute_eoq m → 1 < sensitivity_to_Q m Q) ∧
    (∀ k : ℝ, 0 < k →
      sensitivity_to_Q m (compute_eoq m * k) =
        sensitivity_to_Q m (compute_eoq m / k)) := by
  have hq : 0 < compute_eoq m := compute_eoq_pos m hK hh hd
  refine ⟨?_, ?_, ?_⟩
  · unfold sensitivity_to_Q
    rw [div_self hq.ne']
    norm_num
  · intro Q hQ hne
    unfold sensitivity_to_Q
    rw [div_add_div _ _ hQ.ne' hq.ne',
      show (0.5:ℝ) *
          ((compute_eoq m * compute_eoq m + Q * Q) / (Q * compute_eoq m)) =
        (compute_eoq m * compute_eoq m + Q * Q) /
          (2 * (Q * compute_eoq m)) by ring,
      lt_div_iff₀ (by positivity)]
    have h2 : 0 < (Q - compute_eoq m) ^ 2 := by
      have : Q - compute_eoq m ≠ 0 := sub_ne_zero_of_ne hne
      positivity
    nlinarith [h2]
  · intro k hk
    unfold sensitivity_to_Q
    have e1 : compute_eoq m / (compute_eoq m * k) = 1 / k := by
      rw [div_mul_eq_div_div, div_self hq.ne']
    have e2 : compute_eoq m * k / compute_eoq m = k := by
      rw [mul_comm, mul_div_assoc, div_self hq.ne', mul_one]
    have e3 : compute_eoq m / (compute_eoq m / k) = k := by
      rw [div_div_eq_mul_div, mul_comm, mul_div_assoc, div_self hq.ne',
        mul_one]
    have e4 : compute_eoq m / k / compute_eoq m = 1 / k := by
      rw [div_div, mul_comm, ← div_div, div_self hq.ne']
    rw [e1, e2, e3, e4]
    ring

/-- Witness for C7 at `K = 2, h = 1, d = 1, v = 0` (optimum `2`),
off-optimum `Q = 3`, and symmetry factor `k = 4`. -/
theorem C7_sensitivity_properties_witness :
    sensitivity_to_Q ⟨2, 1, 1, 0⟩ (compute_eoq ⟨2, 1, 1, 0⟩) = 1 ∧
    1 < sensitivity_to_Q ⟨2, 1, 1, 0⟩ 3 ∧
    sensitivity_to_Q ⟨2, 1, 1, 0⟩ (compute_eoq ⟨2, 1, 1, 0⟩ * 4) =
      sensitivity_to_Q ⟨2, 1, 1, 0⟩ (compute_eoq ⟨2, 1, 1, 0⟩ / 4) := by
  obtain ⟨h1, h2, h3⟩ := C7_sensitivity_properties ⟨2, 1, 1, 0⟩
    (by norm_num) (by norm_num) (by norm_num)
  refine ⟨h1, h2 3 (by norm_num) ?_, h3 4 (by norm_num)⟩
  rw [compute_eoq_sample]
  norm_num

/-- Claim C8: for every model with `K > 0`, `h > 0`, `d > 0`,
`itr() * compute_eoq() = 2*d` (here exactly, hence within any
tolerance); both calls re-run the same deterministic minimization, so
they agree. -/
theorem C8_itr_eoq_identity (m : eoq) (hK : 0 < m.K) (hh : 0 < m.h)
    (hd : 0 < m.d) : itr m * compute_eoq m = 2 * m.d := by
  have hq : 0 < compute_eoq m := compute_eoq_pos m hK hh hd
  unfold itr
  exact div_mul_cancel₀ _ hq.ne'

/-- Witness for C8 at `K = 2, h = 1, d = 1, v = 0`. -/
theorem C8_itr_eoq_identity_witness :
    itr ⟨2, 1, 1, 0⟩ * compute_eoq ⟨2, 1, 1, 0⟩ = 2 * 1 :=
  C8_itr_eoq_identity ⟨2, 1, 1, 0⟩ (by norm_num) (by norm_num)
    (by norm_num)

/-- Claim C9: for every model with `d > 0`:
`coverage() = compute_eoq()/d` exactly,
`average_inventory() = compute_eoq()/2` exactly, and
`reorder_point(lead_time) = d*lead_time` for every lead time. -/
theorem C9_derived_metrics (m : eoq) (_hd : 0 < m.d) :
    coverage m = compute_eoq m / m.d ∧
    average_inventory m = compute_eoq m / 2 ∧
    ∀ lead_time : ℝ, reorder_point m lead_time = m.d * lead_time :=
  ⟨rfl, rfl, fun _ => rfl⟩

/-- Witness for C9 at `K = 100, h = 1, d = 10, v = 2` with lead time
`2` (the spec's concrete scenario, where `reorder_point(2) = 20`). -/
theorem C9_derived_metrics_witness :
    coverage ⟨100, 1, 10, 2⟩ = compute_eoq ⟨100, 1, 10, 2⟩ / 10 ∧
    average_inventory ⟨100, 1, 10, 2⟩ = compute_eoq ⟨100, 1, 10, 2⟩ / 2 ∧
    reorder_point ⟨100, 1, 10, 2⟩ 2 = 10 * 2 := by
  obtain ⟨h1, h2, h3⟩ := C9_derived_metrics ⟨100, 1, 10, 2⟩ (by norm_num)
  refine ⟨h1, h2, ?_⟩
  rw [h3 2]

/-- Counterexample to claim C10: at the model
`K = 1, h = 1, d = 0, v = 1` and `Q = 1 ≠ 0`, `co_fixed` does not
return `K*d/Q`: the inner division `Q/d` raises `ZeroDivisionError`
(modelled as `none`), so `co_fixed` is not total on every model. -/
theorem C10_counterexample :
    co_fixed_run ⟨1, 1, 0, 1⟩ 1 = none ∧
    co_fixed_run ⟨1, 1, 0, 1⟩ 1 ≠ some ((1:ℝ) * 0 / 1) := by
  have h : co_fixed_run ⟨1, 1, 0, 1⟩ 1 = none := by
    unfold co_fixed_run pydiv
    rw [if_pos rfl]
    rfl
  exact ⟨h, by rw [h]; exact fun hcon => Option.noConfusion hcon⟩

/-- Claim C10 amended: restricted to models with `d ≠ 0`, the cost
primitives perform no argument validation and are total on every
nonzero `Q`, including negative `Q`: `co_fixed(Q)` returns `K*d/Q` for
every `Q ≠ 0`, `ch(Q)` returns `h*Q/2` and `co_variable(Q)` returns
`d*v` for every `Q` (even `Q = 0`), with no error raised — so a
negative `Q` yields a finite negative cost rather than a failure.
(When `d = 0`, `co_fixed` raises `ZeroDivisionError` at the inner
division `Q/d`.) -/
theorem C10_amended_primitives_total (m : eoq) (hd : m.d ≠ 0) :
    (∀ Q : ℝ, Q ≠ 0 → co_fixed_run m Q = some (m.K * m.d / Q)) ∧
    (∀ Q : ℝ, ch_run m Q = some (m.h * Q / 2)) ∧
    (∀ Q : ℝ, co_variable_run m Q = some (m.d * m.v)) :=
  ⟨fun _ hQ => co_fixed_run_eq m hd hQ, fun _ => rfl, fun _ => rfl⟩

/-- Witness for the amended C10 at `K = 100, h = 1, d = 10, v = 2`:
`co_fixed(-1) = -1000` (finite and negative), `ch(-1) = -1/2`, and
`co_variable(0) = 20`, all without error. -/
theorem C10_amended_primitives_total_witness :
    co_fixed_run ⟨100, 1, 10, 2⟩ (-1) = some (100 * 10 / (-1)) ∧
    ch_run ⟨100, 1, 10, 2⟩ (-1) = some (1 * (-1) / 2) ∧
    co_variable_run ⟨100, 1, 10, 2⟩ 0 = some (10 * 2) :=
  ⟨(C10_amended_primitives_total ⟨100, 1, 10, 2⟩ (by norm_num)).1 (-1)
      (by norm_num),
    (C10_amended_primitives_total ⟨100, 1, 10, 2⟩ (by norm_num)).2.1 (-1),
    (C10_amended_primitives_total ⟨100, 1, 10, 2⟩ (by norm_num)).2.2 0⟩

end InventoryAnalytics
